import Mathlib

/-!
Shallow embedding of the tape-device simulator (src/main.cpp) and proofs
about its device model and indexing strategies.

Modelling conventions:
* C++ `double` time costs are modelled as exact rationals (ℚ); every cost
  in the source is built from `+`, `*`, `/` on nonnegative quantities.
* `std::out_of_range` exceptions are modelled with `Except TapeDevice _`:
  `.error d` means the call threw, with `d` the device state at the moment
  of the throw (the source checks bounds before any mutation).
* `std::string::npos` ("not found") is modelled as `Option.none`.
* `std::unordered_map` is modelled as an association list with
  overwrite-on-insert; the source only uses lookup and size, which do not
  depend on iteration order.
* The loop in `FixedIntervalIndexStrategy::build_index` re-reads the block
  count of a device it is growing; its embedding takes a fuel argument and
  returns `Option.none` when fuel runs out.
-/

namespace FakeTape

/-- A tape block: identifier, payload bytes, and index-block flag
(mirrors `struct TapeBlock`). -/
structure TapeBlock where
  block_id : Nat
  data : List Nat
  is_index_block : Bool
deriving DecidableEq, Repr

/-- The simulated tape device (mirrors `class TapeDevice`): timing
parameters, head position and the ordered block sequence. -/
structure TapeDevice where
  block_size : Nat
  read_speed : ℚ
  write_speed : ℚ
  seek_time_per_block : ℚ
  current_position : Nat
  blocks : List TapeBlock
deriving DecidableEq, Repr

instance instDecEqExcept {ε α : Type} [DecidableEq ε] [DecidableEq α] :
    DecidableEq (Except ε α) := fun x y =>
  match x, y with
  | .error a, .error b =>
    if h : a = b then isTrue (congrArg Except.error h)
    else isFalse fun hc => h (Except.error.inj hc)
  | .ok a, .ok b =>
    if h : a = b then isTrue (congrArg Except.ok h)
    else isFalse fun hc => h (Except.ok.inj hc)
  | .error _, .ok _ => isFalse fun hc => Except.noConfusion hc
  | .ok _, .error _ => isFalse fun hc => Except.noConfusion hc

/-- `TapeDevice::get_current_position`. -/
def TapeDevice.get_current_position (dev : TapeDevice) : Nat :=
  dev.current_position

/-- `TapeDevice::get_block_count`. -/
def TapeDevice.get_block_count (dev : TapeDevice) : Nat :=
  dev.blocks.length

/-- `TapeDevice::write_block`: append the block, cost = size / write_speed. -/
def TapeDevice.write_block (dev : TapeDevice) (b : TapeBlock) : ℚ × TapeDevice :=
  ((b.data.length : ℚ) / dev.write_speed, { dev with blocks := dev.blocks ++ [b] })

/-- `TapeDevice::read_current_block`: throws out-of-range when the head is
at or past the end; otherwise returns the block under the head and
cost = size / read_speed.  The device is unchanged in both cases. -/
def TapeDevice.read_current_block (dev : TapeDevice) :
    Except TapeDevice (TapeBlock × ℚ) :=
  if h : dev.current_position < dev.blocks.length then
    let b := dev.blocks.get ⟨dev.current_position, h⟩
    .ok (b, (b.data.length : ℚ) / dev.read_speed)
  else
    .error dev

/-- Seek distance `std::abs(int64(target) - int64(current))`. -/
def seekDist (a b : Nat) : Nat := ((a : Int) - (b : Int)).natAbs

/-- `TapeDevice::seek_to_block`: throws out-of-range when the target is at
or past the end (before any mutation); otherwise moves the head and
charges distance × seek_time_per_block. -/
def TapeDevice.seek_to_block (dev : TapeDevice) (block_index : Nat) :
    Except TapeDevice (ℚ × TapeDevice) :=
  if block_index < dev.blocks.length then
    .ok ((seekDist block_index dev.current_position : ℚ) * dev.seek_time_per_block,
         { dev with current_position := block_index })
  else
    .error dev

/-- `TapeDevice::move_forward`: compute `current_position + n` in `size_t`
arithmetic (the sum wraps mod 2^64); if the wrapped sum is at or past the
block count, clamp to `blocks.size() - 1` — itself a `size_t` subtraction
that underflows to `2^64 - 1` on an empty device — and delegate to seek. -/
def TapeDevice.move_forward (dev : TapeDevice) (n : Nat) :
    Except TapeDevice (ℚ × TapeDevice) :=
  let new_pos := (dev.current_position + n) % 2 ^ 64
  let new_pos := if dev.blocks.length ≤ new_pos
    then (dev.blocks.length + 2 ^ 64 - 1) % 2 ^ 64
    else new_pos
  dev.seek_to_block new_pos

/-- `TapeDevice::move_backward`: clamp `current - n` at 0 and delegate to seek. -/
def TapeDevice.move_backward (dev : TapeDevice) (n : Nat) :
    Except TapeDevice (ℚ × TapeDevice) :=
  let new_pos := if n ≤ dev.current_position then dev.current_position - n else 0
  dev.seek_to_block new_pos

/-- `TapeDevice::reset`. -/
def TapeDevice.reset (dev : TapeDevice) : TapeDevice :=
  { dev with blocks := [], current_position := 0 }

/-! ### No-index strategy -/

/-- `NoIndexStrategy::build_index`: a no-op with zero cost. -/
def NoIndexStrategy.build_index (dev : TapeDevice) : ℚ × TapeDevice :=
  (0, dev)

/-- One circular scan loop of `NoIndexStrategy::find_block`: at step `i`
seek to `(orig + i) % N`, read, and stop on the first non-index block whose
identifier matches.  `r` is the number of remaining steps (`N - i`). -/
def noIndexFindLoop (data_id orig : Nat) :
    Nat → Nat → ℚ → TapeDevice → Except TapeDevice (Option Nat × ℚ × TapeDevice)
  | 0, _, acc, dev => .ok (none, acc, dev)
  | r + 1, i, acc, dev =>
    let pos := (orig + i) % dev.blocks.length
    match dev.seek_to_block pos with
    | .error d => .error d
    | .ok (st, dev1) =>
      match dev1.read_current_block with
      | .error d => .error d
      | .ok (b, rt) =>
        if b.is_index_block = false ∧ b.block_id = data_id then
          .ok (some pos, acc + st + rt, dev1)
        else
          noIndexFindLoop data_id orig r (i + 1) (acc + st + rt) dev1

/-- `NoIndexStrategy::find_block`: full circular scan from the current head
position; `none` models `std::string::npos`. -/
def NoIndexStrategy.find_block (dev : TapeDevice) (data_id : Nat) :
    Except TapeDevice (Option Nat × ℚ × TapeDevice) :=
  noIndexFindLoop data_id dev.current_position dev.blocks.length 0 0 dev

/-! ### Association-list model of `std::unordered_map` -/

/-- Insert with overwrite (`index_map[k] = v`). -/
def insertA (m : List (Nat × Nat)) (k v : Nat) : List (Nat × Nat) :=
  match m with
  | [] => [(k, v)]
  | (k1, v1) :: rest => if k1 = k then (k, v) :: rest else (k1, v1) :: insertA rest k v

/-- Lookup (`index_map.find(k)`). -/
def lookupA (m : List (Nat × Nat)) (k : Nat) : Option Nat :=
  match m with
  | [] => none
  | (k1, v1) :: rest => if k1 = k then some v1 else lookupA rest k

/-! ### Fixed-interval strategy -/

/-- The walk of `FixedIntervalIndexStrategy::build_index`.  `i` is the loop
counter; the loop bound `tape.get_block_count()` is re-read every iteration
while the walk itself appends index blocks, so the embedding carries fuel
(`none` = fuel exhausted).  Mirrors the body exactly: read the current
block; if it is a data block record `id ↦ i` and, when the map size is a
multiple of `interval`, append a fresh index block at the end of the tape
and advance one step; finally advance one step unless `i` is at
`count - 1`. -/
def fixedBuildLoop (interval : Nat) :
    Nat → Nat → List (Nat × Nat) → ℚ → TapeDevice →
    Option (Except TapeDevice (List (Nat × Nat) × ℚ × TapeDevice))
  | 0, _, _, _, _ => none
  | fuel + 1, i, m, acc, dev =>
    if i < dev.blocks.length then
      match dev.read_current_block with
      | .error d => some (.error d)
      | .ok (b, rt) =>
        let step : Except TapeDevice (List (Nat × Nat) × ℚ × TapeDevice) :=
          if b.is_index_block = false then
            let m1 := insertA m b.block_id i
            if m1.length % interval = 0 then
              let ib : TapeBlock := ⟨(b.block_id + 1000000) % 2 ^ 64, [], true⟩
              let w := dev.write_block ib
              match w.2.move_forward 1 with
              | .error d => .error d
              | .ok (mt, dev2) => .ok (m1, acc + rt + w.1 + mt, dev2)
            else .ok (m1, acc + rt, dev)
          else .ok (m, acc + rt, dev)
        match step with
        | .error d => some (.error d)
        | .ok (m2, acc2, devA) =>
          if i < devA.blocks.length - 1 then
            match devA.move_forward 1 with
            | .error d => some (.error d)
            | .ok (mt2, devB) => fixedBuildLoop interval fuel (i + 1) m2 (acc2 + mt2) devB
          else fixedBuildLoop interval fuel (i + 1) m2 acc2 devA
    else
      some (.ok (m, acc, dev))

/-- `FixedIntervalIndexStrategy::build_index`: clear the map, seek to 0,
walk the tape (appending an index block after every `interval` data blocks
recorded), then seek back to the original position.  Returns the rebuilt
map together with the accumulated cost and the final device. -/
def FixedIntervalIndexStrategy.build_index (interval fuel : Nat) (dev : TapeDevice) :
    Option (Except TapeDevice (List (Nat × Nat) × ℚ × TapeDevice)) :=
  let orig := dev.current_position
  match dev.seek_to_block 0 with
  | .error d => some (.error d)
  | .ok (t0, dev1) =>
    match fixedBuildLoop interval fuel 0 [] t0 dev1 with
    | none => none
    | some (.error d) => some (.error d)
    | some (.ok (m, acc, dev2)) =>
      match dev2.seek_to_block orig with
      | .error d => some (.error d)
      | .ok (tb, dev3) => some (.ok (m, acc + tb, dev3))

/-- `FixedIntervalIndexStrategy::find_block`: map lookup; on a miss return
"not found" with zero cost and no device access; on a hit seek to the
recorded position, read, and verify the identifier before confirming. -/
def FixedIntervalIndexStrategy.find_block (m : List (Nat × Nat)) (dev : TapeDevice)
    (data_id : Nat) : Except TapeDevice (Option Nat × ℚ × TapeDevice) :=
  match lookupA m data_id with
  | none => .ok (none, 0, dev)
  | some target_pos =>
    match dev.seek_to_block target_pos with
    | .error d => .error d
    | .ok (st, dev1) =>
      match dev1.read_current_block with
      | .error d => .error d
      | .ok (b, rt) =>
        if b.block_id = data_id then .ok (some target_pos, st + rt, dev1)
        else .ok (none, st + rt, dev1)

/-! ### Hierarchical strategy -/

/-- Insert with overwrite for the hierarchical map `id ↦ (level1, level2)`. -/
def insertP (m : List (Nat × Nat × Nat)) (k : Nat) (v : Nat × Nat) :
    List (Nat × Nat × Nat) :=
  match m with
  | [] => [(k, v.1, v.2)]
  | (k1, v1) :: rest => if k1 = k then (k, v.1, v.2) :: rest else (k1, v1) :: insertP rest k v

/-- The read-only walk of `HierarchicalIndexStrategy::build_index`: the
block count `N` is read once before the loop; step `i` reads the current
block, collects `(id, i)` for data blocks, and moves forward unless `i`
is at `N - 1`.  `r` is the number of remaining steps (`N - i`). -/
def hierWalk (N : Nat) :
    Nat → Nat → ℚ → List (Nat × Nat) → TapeDevice →
    Except TapeDevice (List (Nat × Nat) × ℚ × TapeDevice)
  | 0, _, acc, dbs, dev => .ok (dbs, acc, dev)
  | r + 1, i, acc, dbs, dev =>
    match dev.read_current_block with
    | .error d => .error d
    | .ok (b, rt) =>
      let dbs1 := if b.is_index_block = false then dbs ++ [(b.block_id, i)] else dbs
      if i < N - 1 then
        match dev.move_forward 1 with
        | .error d => .error d
        | .ok (mt, dev1) => hierWalk N r (i + 1) (acc + rt + mt) dbs1 dev1
      else
        hierWalk N r (i + 1) (acc + rt) dbs1 dev

/-- The level-2 summary block appended first (`TapeBlock(1000000, {}, true)`). -/
def level2Block : TapeBlock := ⟨1000000, [], true⟩

/-- The level-1 summary block appended second (`TapeBlock(2000000, {}, true)`). -/
def level1Block : TapeBlock := ⟨2000000, [], true⟩

/-- The bucket map of `HierarchicalIndexStrategy::build_index`: for the
`i`-th collected data block, `level2 = i / level2_interval` and
`level1 = level2 / level1_interval`. -/
def buildHierMap (level1_interval level2_interval : Nat) :
    Nat → List (Nat × Nat) → List (Nat × Nat × Nat) → List (Nat × Nat × Nat)
  | _, [], m => m
  | i, (id, _pos) :: rest, m =>
    let l2 := i / level2_interval
    let l1 := l2 / level1_interval
    buildHierMap level1_interval level2_interval (i + 1) rest (insertP m id (l1, l2))

/-- `HierarchicalIndexStrategy::build_index`: seek to 0, walk all `N`
blocks collecting `(id, position)` pairs, append the level-2 then the
level-1 summary block, build the bucket map, and seek back to the original
position. -/
def HierarchicalIndexStrategy.build_index (level1_interval level2_interval : Nat)
    (dev : TapeDevice) :
    Except TapeDevice (List (Nat × Nat × Nat) × ℚ × TapeDevice) :=
  let orig := dev.current_position
  let N := dev.blocks.length
  match dev.seek_to_block 0 with
  | .error d => .error d
  | .ok (t0, dev1) =>
    match hierWalk N N 0 t0 [] dev1 with
    | .error d => .error d
    | .ok (dbs, acc, dev2) =>
      let w2 := dev2.write_block level2Block
      let w1 := w2.2.write_block level1Block
      let m := buildHierMap level1_interval level2_interval 0 dbs []
      match w1.2.seek_to_block orig with
      | .error d => .error d
      | .ok (tb, dev5) => .ok (m, acc + w2.1 + w1.1 + tb, dev5)

/-! ### Scan positions and costs of the no-index circular search -/

/-- Position visited at step `i` of the circular scan that starts at `orig`
on a tape of `N` blocks. -/
def scanPos (orig N i : Nat) : Nat := (orig + i) % N

/-- Head position just before step `i` of the scan: the start position for
`i = 0`, otherwise the previously visited position. -/
def prevPos (orig N i : Nat) : Nat :=
  if i = 0 then orig else scanPos orig N (i - 1)

/-- Read cost of the block stored at `pos` (zero past the end). -/
def readCostAt (dev : TapeDevice) (pos : Nat) : ℚ :=
  match dev.blocks.get? pos with
  | some b => (b.data.length : ℚ) / dev.read_speed
  | none => 0

/-- Cost of step `i` of the circular scan: seek from the previous position
to the visited one, plus the read of the visited block. -/
def stepCost (dev : TapeDevice) (orig i : Nat) : ℚ :=
  (seekDist (scanPos orig dev.blocks.length i) (prevPos orig dev.blocks.length i) : ℚ) *
      dev.seek_time_per_block +
    readCostAt dev (scanPos orig dev.blocks.length i)

/-- Sum of the scan step costs for steps `i, i+1, …, i+r-1`. -/
def stepSum (dev : TapeDevice) (orig i r : Nat) : ℚ :=
  ((List.range' i r).map (stepCost dev orig)).sum

/-- Total cost of one full pass over all blocks, scanning circularly from
`orig`: the sum of every per-step seek and read cost. -/
def fullPassCost (dev : TapeDevice) (orig : Nat) : ℚ :=
  ((List.range dev.blocks.length).map (stepCost dev orig)).sum

/-- `matchAt B id p` holds when position `p` stores a non-index block whose
identifier is `id` — the success test of the no-index scan. -/
def matchAt (B : List TapeBlock) (id p : Nat) : Bool :=
  match B.get? p with
  | some b => !b.is_index_block && b.block_id == id
  | none => false

/-! ### Concrete scenario devices -/

/-- A device holding `n` data blocks with identifiers `1, …, n` (identifier
`i + 1` at position `i`), empty payloads, head at 0, and unit timing
parameters — the spec's end-to-end fixed-interval scenario for `n = 100`. -/
def seqDevice (n : Nat) : TapeDevice :=
  { block_size := 4096, read_speed := 1, write_speed := 1, seek_time_per_block := 1,
    current_position := 0,
    blocks := (List.range n).map fun i => ⟨i + 1, [], false⟩ }

/-- Outcome of the spec scenario for claim C1: build the fixed-interval
index (interval 10) over 100 data blocks with identifiers 1..100, then
query identifier 57.  `some r` means build and query both returned
normally and the query result was `r` (`none` = "not found"). -/
def c1ScenarioResult : Option (Option Nat) :=
  match FixedIntervalIndexStrategy.build_index 10 200 (seqDevice 100) with
  | some (.ok (m, _, dev1)) =>
    match FixedIntervalIndexStrategy.find_block m dev1 57 with
    | .ok (res, _, _) => some res
    | .error _ => none
  | _ => none

/-- Outcome of the spec scenario for claim C2: `some (map size, final block
count, all appended blocks are index blocks)` after the same build. -/
def c2ScenarioResult : Option (Nat × Nat × Bool) :=
  match FixedIntervalIndexStrategy.build_index 10 200 (seqDevice 100) with
  | some (.ok (m, _, dev1)) =>
    some (m.length, dev1.blocks.length, (dev1.blocks.drop 100).all fun b => b.is_index_block)
  | _ => none

/-- Head position reported after a concrete fixed-interval build (interval
10, fuel 20) over the three-block device; `some p` means the build returned
normally with the head at `p`. -/
def c9FixedOutcome : Option Nat :=
  match FixedIntervalIndexStrategy.build_index 10 20 (seqDevice 3) with
  | some (.ok (_, _, d)) => some d.current_position
  | _ => none

/-- A freshly constructed empty device with unit timing parameters. -/
def emptyDevice : TapeDevice :=
  { block_size := 4096, read_speed := 1, write_speed := 1, seek_time_per_block := 1,
    current_position := 0, blocks := [] }

/-- A small mixed device: data blocks 5 and 7 at positions 0 and 1, plus an
index block that reuses identifier 7 at position 2 (head at 0, unit
timing). -/
def mixedDevice : TapeDevice :=
  { block_size := 4096, read_speed := 1, write_speed := 1, seek_time_per_block := 1,
    current_position := 0,
    blocks := [⟨5, [], false⟩, ⟨7, [], false⟩, ⟨7, [], true⟩] }

/-- A ten-block device (identifiers 1..10, empty payloads, unit timing)
with the head at position 5 — used to exhibit the `size_t` wraparound of
`move_forward`. -/
def wrapDevice : TapeDevice :=
  { block_size := 4096, read_speed := 1, write_speed := 1, seek_time_per_block := 1,
    current_position := 5,
    blocks := (List.range 10).map fun i => ⟨i + 1, [], false⟩ }

/-! ## Theorems -/

/-- On success, `seek_to_block` reports cost distance × seek time and moves
the head to the target. -/
theorem seek_ok (dev : TapeDevice) (p : Nat) (h : p < dev.blocks.length) :
    dev.seek_to_block p =
      .ok ((seekDist p dev.current_position : ℚ) * dev.seek_time_per_block,
           { dev with current_position := p }) := by
  simp [TapeDevice.seek_to_block, h]

/-- On success, `read_current_block` returns the block under the head with
cost size / read speed, leaving the device unchanged. -/
theorem read_ok (dev : TapeDevice) (h : dev.current_position < dev.blocks.length) :
    dev.read_current_block =
      .ok (dev.blocks.get ⟨dev.current_position, h⟩,
           ((dev.blocks.get ⟨dev.current_position, h⟩).data.length : ℚ) / dev.read_speed) := by
  simp [TapeDevice.read_current_block, h]

/-- `move_forward` is a seek to the clamp of the `size_t`-wrapped sum. -/
theorem move_forward_eq_seek (dev : TapeDevice) (n : Nat) :
    dev.move_forward n =
      dev.seek_to_block
        (if dev.blocks.length ≤ (dev.current_position + n) % 2 ^ 64
         then (dev.blocks.length + 2 ^ 64 - 1) % 2 ^ 64
         else (dev.current_position + n) % 2 ^ 64) := rfl

/-- When the `size_t` sum does not wrap, the seek target of `move_forward`
is `min (current + n) (length - 1)`, as in the non-overflowing reading of
the spec. -/
theorem move_forward_target_no_wrap (dev : TapeDevice) (n : Nat)
    (h : 0 < dev.blocks.length) (hn : dev.current_position + n < 2 ^ 64) :
    (if dev.blocks.length ≤ (dev.current_position + n) % 2 ^ 64
     then (dev.blocks.length + 2 ^ 64 - 1) % 2 ^ 64
     else (dev.current_position + n) % 2 ^ 64) =
      min (dev.current_position + n) (dev.blocks.length - 1) := by
  rw [Nat.mod_eq_of_lt hn]
  split_ifs with hc
  · have hlen2 : dev.blocks.length < 2 ^ 64 := lt_of_le_of_lt hc hn
    rw [show dev.blocks.length + 2 ^ 64 - 1 = (dev.blocks.length - 1) + 2 ^ 64 by omega,
      Nat.add_mod_right, Nat.mod_eq_of_lt (by omega)]
    omega
  · omega

/-- For every `n`, `move_forward` on a non-empty device succeeds and leaves
the head at some in-range position (wrapped or clamped, always below the
block count). -/
theorem move_forward_ok (dev : TapeDevice) (n : Nat) (h : 0 < dev.blocks.length) :
    ∃ c p, dev.move_forward n = .ok (c, { dev with current_position := p }) ∧
      p < dev.blocks.length := by
  rw [move_forward_eq_seek]
  by_cases hc : dev.blocks.length ≤ (dev.current_position + n) % 2 ^ 64
  · rw [if_pos hc]
    have hw : (dev.current_position + n) % 2 ^ 64 < 2 ^ 64 :=
      Nat.mod_lt _ (by norm_num)
    have hlen2 : dev.blocks.length < 2 ^ 64 := lt_of_le_of_lt hc hw
    have hl : (dev.blocks.length + 2 ^ 64 - 1) % 2 ^ 64 = dev.blocks.length - 1 := by
      rw [show dev.blocks.length + 2 ^ 64 - 1 = (dev.blocks.length - 1) + 2 ^ 64 by omega,
        Nat.add_mod_right]
      exact Nat.mod_eq_of_lt (by omega)
    rw [hl, seek_ok dev _ (by omega)]
    exact ⟨_, _, rfl, by omega⟩
  · rw [if_neg hc, seek_ok dev _ (by omega)]
    exact ⟨_, _, rfl, by omega⟩

/-- `move_backward` is a seek to the truncated difference `current - n`. -/
theorem move_backward_eq_seek (dev : TapeDevice) (n : Nat) :
    dev.move_backward n = dev.seek_to_block (dev.current_position - n) := by
  have h : (if n ≤ dev.current_position then dev.current_position - n else 0) =
      dev.current_position - n := by
    split_ifs <;> omega
  show dev.seek_to_block
      (if n ≤ dev.current_position then dev.current_position - n else 0) = _
  rw [h]

/-- A successful seek leaves the head exactly at the requested position. -/
theorem seek_pos_of_ok {dev : TapeDevice} {p : Nat} {c : ℚ} {d : TapeDevice}
    (h : dev.seek_to_block p = .ok (c, d)) : d.current_position = p := by
  unfold TapeDevice.seek_to_block at h
  split at h
  · simp only [Except.ok.injEq, Prod.mk.injEq] at h
    rw [← h.2]
  · exact absurd h (by simp)

/-- Claim C4: for every device with at least one block and every in-range
target, `seek_to_block target` succeeds, a subsequent `get_current_position`
returns exactly `target`, and the reported cost is
`|target - previous head| * seek_time_per_block` — zero for a zero-distance
seek. -/
theorem c4_seek_spec (dev : TapeDevice) (target : Nat) (h : target < dev.blocks.length) :
    dev.seek_to_block target =
      .ok ((seekDist target dev.current_position : ℚ) * dev.seek_time_per_block,
           { dev with current_position := target }) ∧
    ({ dev with current_position := target } : TapeDevice).get_current_position = target ∧
    (target = dev.current_position →
      (seekDist target dev.current_position : ℚ) * dev.seek_time_per_block = 0) := by
  refine ⟨seek_ok dev target h, rfl, fun he => ?_⟩
  subst he
  simp [seekDist]

/-- Witness for C4 on a concrete three-block device. -/
theorem c4_seek_spec_witness :
    (seqDevice 3).seek_to_block 2 =
      .ok ((seekDist 2 (seqDevice 3).current_position : ℚ) * (seqDevice 3).seek_time_per_block,
           { seqDevice 3 with current_position := 2 }) ∧
    ({ seqDevice 3 with current_position := 2 } : TapeDevice).get_current_position = 2 ∧
    (2 = (seqDevice 3).current_position →
      (seekDist 2 (seqDevice 3).current_position : ℚ) * (seqDevice 3).seek_time_per_block = 0) :=
  c4_seek_spec (seqDevice 3) 2 (by decide)

/-- Counterexample to claim C5 as stated: on the ten-block device with the
head at 5, `move_forward (2^64 - 3)` requests a move past the upper bound
(`length ≤ current + n`), yet the `size_t` sum wraps to position 2, which
is in range, so the program seeks there instead of clamping — the head
lands at 2, not at `length - 1 = 9`. -/
theorem c5_wrap_counterexample :
    wrapDevice.blocks.length ≤ wrapDevice.current_position + (2 ^ 64 - 3) ∧
    wrapDevice.move_forward (2 ^ 64 - 3) =
      .ok ((seekDist 2 wrapDevice.current_position : ℚ) * wrapDevice.seek_time_per_block,
           { wrapDevice with current_position := 2 }) ∧
    (2 : Nat) ≠ wrapDevice.blocks.length - 1 := by
  refine ⟨by decide, ?_, by decide⟩
  rw [move_forward_eq_seek]
  rw [show (wrapDevice.current_position + (2 ^ 64 - 3)) % 2 ^ 64 = 2 by decide]
  rw [if_neg (by decide)]
  exact seek_ok wrapDevice 2 (by decide)

/-- Claim C5 (amended): on a device whose head is in range, `move_forward n`
and `move_backward n` succeed and never leave the head outside
`[0, length - 1]` for every `n`; whenever `current + n` does not overflow
`size_t` (`current + n < 2^64`), a move past the upper bound clamps exactly
to `length - 1`; a move past the lower bound clamps exactly to `0` for
every `n`.  (For overflowing `n` the sum wraps mod 2^64 and the program
seeks to the wrapped position when it is in range, instead of clamping.) -/
theorem c5_move_clamps_no_wrap (dev : TapeDevice) (n : Nat)
    (h : dev.current_position < dev.blocks.length) :
    (∃ c p, dev.move_forward n = .ok (c, { dev with current_position := p }) ∧
      p ≤ dev.blocks.length - 1) ∧
    (dev.current_position + n < 2 ^ 64 →
      dev.move_forward n =
          .ok ((seekDist (min (dev.current_position + n) (dev.blocks.length - 1))
                  dev.current_position : ℚ) * dev.seek_time_per_block,
               { dev with
                   current_position := min (dev.current_position + n) (dev.blocks.length - 1) }) ∧
        (dev.blocks.length ≤ dev.current_position + n →
          min (dev.current_position + n) (dev.blocks.length - 1) = dev.blocks.length - 1) ∧
        (dev.current_position + n < dev.blocks.length →
          min (dev.current_position + n) (dev.blocks.length - 1) = dev.current_position + n)) ∧
    (dev.move_backward n =
        .ok ((seekDist (dev.current_position - n) dev.current_position : ℚ) *
               dev.seek_time_per_block,
             { dev with current_position := dev.current_position - n }) ∧
      dev.current_position - n ≤ dev.blocks.length - 1 ∧
      (dev.current_position ≤ n → dev.current_position - n = 0)) := by
  refine ⟨?_, fun hn => ⟨?_, fun hc => by omega, fun hc => by omega⟩,
          ⟨?_, by omega, fun hc => by omega⟩⟩
  · obtain ⟨c, p, hm, hp⟩ := move_forward_ok dev n (by omega)
    exact ⟨c, p, hm, by omega⟩
  · rw [move_forward_eq_seek, move_forward_target_no_wrap dev n (by omega) hn]
    exact seek_ok dev _ (by omega)
  · rw [move_backward_eq_seek]
    exact seek_ok dev _ (by omega)

/-- Witness for the amended C5: on the three-block device, moving forward
by 5 (a non-overflowing request past the end) clamps the head to position
2 and moving backward by 5 clamps it to 0. -/
theorem c5_move_clamps_no_wrap_witness :
    (∃ c p, (seqDevice 3).move_forward 5 =
        .ok (c, { seqDevice 3 with current_position := p }) ∧
      p ≤ (seqDevice 3).blocks.length - 1) ∧
    min ((seqDevice 3).current_position + 5) ((seqDevice 3).blocks.length - 1) =
        (seqDevice 3).blocks.length - 1 ∧
    (seqDevice 3).current_position - 5 = 0 ∧
    (seqDevice 3).move_forward 5 =
      .ok ((seekDist (min ((seqDevice 3).current_position + 5)
              ((seqDevice 3).blocks.length - 1)) (seqDevice 3).current_position : ℚ) *
             (seqDevice 3).seek_time_per_block,
           { seqDevice 3 with
               current_position :=
                 min ((seqDevice 3).current_position + 5) ((seqDevice 3).blocks.length - 1) }) :=
  ⟨(c5_move_clamps_no_wrap (seqDevice 3) 5 (by decide)).1,
   ((c5_move_clamps_no_wrap (seqDevice 3) 5 (by decide)).2.1 (by decide)).2.1 (by decide),
   (c5_move_clamps_no_wrap (seqDevice 3) 5 (by decide)).2.2.2.2 (by decide),
   ((c5_move_clamps_no_wrap (seqDevice 3) 5 (by decide)).2.1 (by decide)).1⟩

/-- Claim C6: `read_current_block` throws out-of-range exactly when the
head position is at or past the block count (hence always on an empty
device), and `seek_to_block target` throws out-of-range exactly when the
target is at or past the block count. -/
theorem c6_error_conditions (dev : TapeDevice) (target : Nat) :
    ((∃ d, dev.read_current_block = .error d) ↔ dev.blocks.length ≤ dev.current_position) ∧
    ((∃ d, dev.seek_to_block target = .error d) ↔ dev.blocks.length ≤ target) := by
  constructor
  · unfold TapeDevice.read_current_block
    split
    · next hl => simp; omega
    · next hl => simp; omega
  · unfold TapeDevice.seek_to_block
    split
    · next hl => simp; omega
    · next hl => simp; omega

/-- Claim C10: device operations are atomic on error — when `seek_to_block`
or `read_current_block` fails its out-of-range check, the thrown state is
exactly the pre-call device (head and block sequence unchanged), because
the bound is checked before any mutation. -/
theorem c10_error_atomicity (dev : TapeDevice) (target : Nat) :
    (dev.blocks.length ≤ target → dev.seek_to_block target = .error dev) ∧
    (dev.blocks.length ≤ dev.current_position → dev.read_current_block = .error dev) := by
  constructor
  · intro h
    unfold TapeDevice.seek_to_block
    rw [if_neg (by omega)]
  · intro h
    unfold TapeDevice.read_current_block
    rw [dif_neg (by omega)]

/-- Witness for C10: on the empty device both operations throw with the
device unchanged. -/
theorem c10_error_atomicity_witness :
    emptyDevice.seek_to_block 0 = .error emptyDevice ∧
    emptyDevice.read_current_block = .error emptyDevice :=
  ⟨(c10_error_atomicity emptyDevice 0).1 (by decide),
   (c10_error_atomicity emptyDevice 0).2 (by decide)⟩

/-- Claim C7: fixed-interval `find_block` on an identifier absent from the
index map returns "not found" with zero cost and performs no device access
(the device, head and blocks included, is returned unchanged); on an
identifier whose recorded position holds a block with a different
identifier it returns "not found" with the seek and read cost accumulated
so far, the head left at the recorded position. -/
theorem c7_fixed_find_misses (m : List (Nat × Nat)) (dev : TapeDevice) (data_id : Nat) :
    (lookupA m data_id = none →
      FixedIntervalIndexStrategy.find_block m dev data_id = .ok (none, 0, dev)) ∧
    (∀ p b, lookupA m data_id = some p → dev.blocks.get? p = some b →
      b.block_id ≠ data_id →
      FixedIntervalIndexStrategy.find_block m dev data_id =
        .ok (none,
             (seekDist p dev.current_position : ℚ) * dev.seek_time_per_block +
               (b.data.length : ℚ) / dev.read_speed,
             { dev with current_position := p })) := by
  constructor
  · intro h
    unfold FixedIntervalIndexStrategy.find_block
    rw [h]
  · intro p b hl hb hne
    obtain ⟨hp, hget⟩ := List.get?_eq_some.mp hb
    unfold FixedIntervalIndexStrategy.find_block
    rw [hl]
    have hr := read_ok ({ dev with current_position := p }) (by simpa using hp)
    simp only [seek_ok dev p hp, hr]
    have hgb : ({ dev with current_position := p } : TapeDevice).blocks.get
        ⟨({ dev with current_position := p } : TapeDevice).current_position, by simpa using hp⟩ = b := hget
    rw [hgb, if_neg hne]

/-- Witness for C7: with map `[(7, 1), (8, 0)]` over the mixed device,
identifier 9 misses the map (zero cost, device untouched) and identifier 8
points at position 0, which holds identifier 5, so the lookup is rejected
after the seek and read. -/
theorem c7_fixed_find_misses_witness :
    FixedIntervalIndexStrategy.find_block [(7, 1), (8, 0)] mixedDevice 9 =
      .ok (none, 0, mixedDevice) ∧
    FixedIntervalIndexStrategy.find_block [(7, 1), (8, 0)] mixedDevice 8 =
      .ok (none,
           (seekDist 0 mixedDevice.current_position : ℚ) * mixedDevice.seek_time_per_block +
             ((⟨5, [], false⟩ : TapeBlock).data.length : ℚ) / mixedDevice.read_speed,
           { mixedDevice with current_position := 0 }) :=
  ⟨(c7_fixed_find_misses [(7, 1), (8, 0)] mixedDevice 9).1 (by decide),
   (c7_fixed_find_misses [(7, 1), (8, 0)] mixedDevice 8).2 0 ⟨5, [], false⟩
     (by decide) (by decide) (by decide)⟩

/-- The hierarchical build walk always succeeds on a device whose head is
in range: every step reads an in-range block and every move seeks to an
in-range (wrapped or clamped) position, so the walk returns normally, keeps
the block sequence intact, and leaves the head at some in-range position. -/
theorem hierWalk_ok (N : Nat) :
    ∀ (r : Nat), ∀ (i : Nat) (acc : ℚ) (dbs : List (Nat × Nat)) (dev : TapeDevice),
      dev.current_position < dev.blocks.length →
      ∃ dbsF accF p, hierWalk N r i acc dbs dev =
        .ok (dbsF, accF, { dev with current_position := p }) ∧
        p < dev.blocks.length := by
  intro r
  induction r with
  | zero =>
    intro i acc dbs dev hpos
    exact ⟨dbs, acc, dev.current_position, rfl, hpos⟩
  | succ r ih =>
    intro i acc dbs dev hpos
    rw [hierWalk, read_ok dev hpos]
    dsimp only
    by_cases hlt : i < N - 1
    · rw [if_pos hlt]
      obtain ⟨c, p, hm, hp⟩ := move_forward_ok dev 1 (by omega)
      rw [hm]
      dsimp only
      obtain ⟨dbsF, accF, p2, hw, hp2⟩ :=
        ih (i + 1) _ _ ({ dev with current_position := p }) hp
      exact ⟨dbsF, accF, p2, hw, hp2⟩
    · rw [if_neg hlt]
      exact ih (i + 1) _ _ dev hpos

/-- `HierarchicalIndexStrategy::build_index` on a non-empty device with an
in-range head succeeds and returns the original device with exactly the
level-2 and level-1 summary blocks appended (head restored by the final
seek). -/
theorem hierBuild_ok (l1 l2 : Nat) (dev : TapeDevice)
    (hne : 0 < dev.blocks.length) (hpos : dev.current_position < dev.blocks.length) :
    ∃ m t, HierarchicalIndexStrategy.build_index l1 l2 dev =
      .ok (m, t, { dev with blocks := dev.blocks ++ [level2Block, level1Block] }) := by
  unfold HierarchicalIndexStrategy.build_index
  rw [seek_ok dev 0 hne]
  dsimp only
  obtain ⟨dbsF, accF, p, hw, hp⟩ := hierWalk_ok dev.blocks.length dev.blocks.length 0
    ((seekDist 0 dev.current_position : ℚ) * dev.seek_time_per_block) []
    ({ dev with current_position := 0 }) hne
  rw [hw]
  dsimp only [TapeDevice.write_block]
  rw [seek_ok _ dev.current_position
    (by simp only [List.length_append, List.length_singleton]; omega)]
  dsimp only
  have hassoc : dev.blocks ++ [level2Block] ++ [level1Block] =
      dev.blocks ++ [level2Block, level1Block] := by
    simp
  simp only [hassoc]
  exact ⟨_, _, rfl⟩

/-- Claim C8: for every non-empty device (head in range), hierarchical
`build_index` appends exactly two index blocks to the end of the device —
the level-2 summary block (`level2Block`, identifier 1000000) followed by
the level-1 summary block (`level1Block`, identifier 2000000), both with
empty payload and marked as index blocks — and appends no other blocks. -/
theorem c8_hier_appends_two (dev : TapeDevice) (l1 l2 : Nat)
    (hne : 0 < dev.blocks.length) (hpos : dev.current_position < dev.blocks.length) :
    ∃ m t, HierarchicalIndexStrategy.build_index l1 l2 dev =
        .ok (m, t, { dev with blocks := dev.blocks ++ [level2Block, level1Block] }) ∧
      level2Block.is_index_block = true ∧ level2Block.data = [] ∧
      level1Block.is_index_block = true ∧ level1Block.data = [] := by
  obtain ⟨m, t, h⟩ := hierBuild_ok l1 l2 dev hne hpos
  exact ⟨m, t, h, rfl, rfl, rfl, rfl⟩

/-- Witness for C8 on the concrete mixed device. -/
theorem c8_hier_appends_two_witness :
    ∃ m t, HierarchicalIndexStrategy.build_index 100 10 mixedDevice =
        .ok (m, t, { mixedDevice with
          blocks := mixedDevice.blocks ++ [level2Block, level1Block] }) ∧
      level2Block.is_index_block = true ∧ level2Block.data = [] ∧
      level1Block.is_index_block = true ∧ level1Block.data = [] :=
  c8_hier_appends_two mixedDevice 100 10 (by decide) (by decide)

/-- Claim C9: for every non-empty device with the head in range, each of
the three strategies' `build_index` leaves the head where it was before the
call: the no-index build is a no-op; whenever the fixed-interval build
returns normally it ends with a seek back to the original position; the
hierarchical build always returns normally with the head restored. -/
theorem c9_build_restores_head (dev : TapeDevice)
    (hne : 0 < dev.blocks.length) (hpos : dev.current_position < dev.blocks.length) :
    (NoIndexStrategy.build_index dev).2.current_position = dev.current_position ∧
    (∀ interval fuel m t dev1,
      FixedIntervalIndexStrategy.build_index interval fuel dev = some (.ok (m, t, dev1)) →
      dev1.current_position = dev.current_position) ∧
    (∀ l1 l2, ∃ m t dev1,
      HierarchicalIndexStrategy.build_index l1 l2 dev = .ok (m, t, dev1) ∧
      dev1.current_position = dev.current_position) := by
  refine ⟨rfl, ?_, ?_⟩
  · intro interval fuel m t dev1 h
    simp only [FixedIntervalIndexStrategy.build_index] at h
    split at h
    · simp at h
    · split at h
      · simp at h
      · simp at h
      · next m2 acc2 dev2 hloop =>
        split at h
        · simp at h
        · next tb dev3 hseek =>
          simp only [Option.some.injEq, Except.ok.injEq, Prod.mk.injEq] at h
          rw [← h.2.2, seek_pos_of_ok hseek]
  · intro l1 l2
    obtain ⟨m, t, h⟩ := hierBuild_ok l1 l2 dev hne hpos
    exact ⟨m, t, _, h, rfl⟩

/-- Witness for C9 on the three-block device: the no-index build is the
identity on the head; the fixed-interval build (interval 10, fuel 20)
concretely returns normally with the head back at the original position;
the hierarchical build restores the head. -/
theorem c9_build_restores_head_witness :
    (NoIndexStrategy.build_index (seqDevice 3)).2.current_position =
        (seqDevice 3).current_position ∧
    (∃ m t dev1, FixedIntervalIndexStrategy.build_index 10 20 (seqDevice 3) =
        some (.ok (m, t, dev1)) ∧ dev1.current_position = (seqDevice 3).current_position) ∧
    (∃ m t dev1, HierarchicalIndexStrategy.build_index 100 10 (seqDevice 3) =
        .ok (m, t, dev1) ∧ dev1.current_position = (seqDevice 3).current_position) := by
  refine ⟨(c9_build_restores_head (seqDevice 3) (by decide) (by decide)).1, ?_,
          (c9_build_restores_head (seqDevice 3) (by decide) (by decide)).2.2 100 10⟩
  have F : c9FixedOutcome = some 0 := by decide
  unfold c9FixedOutcome at F
  rcases hb : FixedIntervalIndexStrategy.build_index 10 20 (seqDevice 3) with _ | e
  · rw [hb] at F
    simp at F
  · rcases e with d | ⟨m, t, d⟩
    · rw [hb] at F
      simp at F
    · exact ⟨m, t, d, rfl,
        (c9_build_restores_head (seqDevice 3) (by decide) (by decide)).2.1 10 20 m t d hb⟩

/-- A position that matches carries a valid index into the block list. -/
theorem matchAt_lt {B : List TapeBlock} {id p : Nat} (h : matchAt B id p = true) :
    p < B.length := by
  by_contra hB
  have hn : B.get? p = none := List.get?_eq_none.mpr (by omega)
  unfold matchAt at h
  rw [hn] at h
  simp at h

/-- `matchAt` in terms of the stored block, for in-range positions. -/
theorem matchAt_true_iff {B : List TapeBlock} {id p : Nat} (h : p < B.length) :
    matchAt B id p = true ↔
      ((B.get ⟨p, h⟩).is_index_block = false ∧ (B.get ⟨p, h⟩).block_id = id) := by
  have hm : matchAt B id p =
      (!(B.get ⟨p, h⟩).is_index_block && (B.get ⟨p, h⟩).block_id == id) := by
    unfold matchAt
    rw [List.get?_eq_get h]
  rw [hm, Bool.and_eq_true, Bool.not_eq_true', beq_iff_eq]

/-- A non-matching in-range position refutes the scan's success test. -/
theorem matchAt_false_of_not {B : List TapeBlock} {id p : Nat} (h : p < B.length)
    (hn : matchAt B id p = false) :
    ¬((B.get ⟨p, h⟩).is_index_block = false ∧ (B.get ⟨p, h⟩).block_id = id) := by
  rw [← matchAt_true_iff h]
  simp [hn]

/-- The circular scan from any in-range start visits every position. -/
theorem scanPos_covers (orig N p : Nat) (horig : orig < N) (hp : p < N) :
    ∃ k, k < N ∧ scanPos orig N k = p := by
  by_cases hc : orig ≤ p
  · refine ⟨p - orig, by omega, ?_⟩
    unfold scanPos
    rw [show orig + (p - orig) = p by omega]
    exact Nat.mod_eq_of_lt hp
  · refine ⟨p + N - orig, by omega, ?_⟩
    unfold scanPos
    rw [show orig + (p + N - orig) = p + N by omega, Nat.add_mod_right]
    exact Nat.mod_eq_of_lt hp

/-- Zero remaining scan steps cost nothing. -/
theorem stepSum_zero (dev : TapeDevice) (orig i : Nat) : stepSum dev orig i 0 = 0 := rfl

/-- Peeling one step off the scan cost sum. -/
theorem stepSum_succ (dev : TapeDevice) (orig i r : Nat) :
    stepSum dev orig i (r + 1) = stepCost dev orig i + stepSum dev orig (i + 1) r := by
  unfold stepSum
  rw [List.range'_succ]
  simp

/-- Scan step costs ignore the head position field. -/
theorem stepSum_pos_update (dev : TapeDevice) (p orig i r : Nat) :
    stepSum { dev with current_position := p } orig i r = stepSum dev orig i r := rfl

/-- `readCostAt` at an in-range position is the stored block's read cost. -/
theorem readCostAt_get (dev : TapeDevice) (p : Nat) (h : p < dev.blocks.length) :
    readCostAt dev p = ((dev.blocks.get ⟨p, h⟩).data.length : ℚ) / dev.read_speed := by
  unfold readCostAt
  rw [List.get?_eq_get h]

/-- When no remaining scan step matches, the loop completes the pass and
returns "not found" with exactly the per-step seek and read costs added. -/
theorem noIndexFindLoop_not_found (data_id orig : Nat) :
    ∀ (r : Nat), ∀ (i : Nat) (acc : ℚ) (dev : TapeDevice),
      0 < dev.blocks.length →
      dev.current_position = prevPos orig dev.blocks.length i →
      (∀ k, k < r →
        matchAt dev.blocks data_id (scanPos orig dev.blocks.length (i + k)) = false) →
      ∃ devF, noIndexFindLoop data_id orig r i acc dev =
        .ok (none, acc + stepSum dev orig i r, devF) := by
  intro r
  induction r with
  | zero =>
    intro i acc dev hlen hcur hm
    rw [stepSum_zero, add_zero]
    exact ⟨dev, rfl⟩
  | succ r ih =>
    intro i acc dev hlen hcur hm
    have hpos : (orig + i) % dev.blocks.length < dev.blocks.length := Nat.mod_lt _ hlen
    have hm0 := hm 0 (by omega)
    rw [Nat.add_zero] at hm0
    unfold scanPos at hm0
    rw [noIndexFindLoop]
    rw [seek_ok dev _ hpos]
    dsimp only
    rw [read_ok ({ dev with current_position := (orig + i) % dev.blocks.length }) hpos]
    dsimp only
    rw [if_neg (matchAt_false_of_not hpos hm0)]
    obtain ⟨devF, heq⟩ := ih (i + 1) _
      ({ dev with current_position := (orig + i) % dev.blocks.length })
      hlen
      (by
        show (orig + i) % dev.blocks.length = prevPos orig dev.blocks.length (i + 1)
        unfold prevPos scanPos
        rw [if_neg (by omega : ¬(i + 1 = 0)), Nat.add_sub_cancel])
      (by
        intro k hk
        show matchAt dev.blocks data_id
          (scanPos orig dev.blocks.length (i + 1 + k)) = false
        have hmk := hm (k + 1) (by omega)
        rwa [show i + (k + 1) = i + 1 + k by omega] at hmk)
    refine ⟨devF, ?_⟩
    rw [heq]
    refine congrArg (fun c => Except.ok ((none : Option Nat), c, devF)) ?_
    rw [stepSum_pos_update, stepSum_succ]
    have hst : stepCost dev orig i =
        (seekDist ((orig + i) % dev.blocks.length) dev.current_position : ℚ) *
            dev.seek_time_per_block +
          ((dev.blocks.get ⟨(orig + i) % dev.blocks.length, hpos⟩).data.length : ℚ) /
            dev.read_speed := by
      unfold stepCost scanPos
      rw [hcur, readCostAt_get dev _ hpos]
    rw [hst]
    ring

/-- When some remaining scan step matches, the loop returns the first
matching position — a position whose stored block is a data block with the
queried identifier. -/
theorem noIndexFindLoop_finds (data_id orig : Nat) :
    ∀ (r : Nat), ∀ (i : Nat) (acc : ℚ) (dev : TapeDevice),
      0 < dev.blocks.length →
      (∃ k, k < r ∧
        matchAt dev.blocks data_id (scanPos orig dev.blocks.length (i + k)) = true) →
      ∃ q t devF, noIndexFindLoop data_id orig r i acc dev = .ok (some q, t, devF) ∧
        matchAt dev.blocks data_id q = true := by
  intro r
  induction r with
  | zero =>
    intro i acc dev hlen hex
    obtain ⟨k, hk, -⟩ := hex
    exact absurd hk (by omega)
  | succ r ih =>
    intro i acc dev hlen hex
    have hpos : (orig + i) % dev.blocks.length < dev.blocks.length := Nat.mod_lt _ hlen
    rw [noIndexFindLoop]
    rw [seek_ok dev _ hpos]
    dsimp only
    rw [read_ok ({ dev with current_position := (orig + i) % dev.blocks.length }) hpos]
    dsimp only
    by_cases hm0 : matchAt dev.blocks data_id ((orig + i) % dev.blocks.length) = true
    · rw [if_pos ((matchAt_true_iff hpos).mp hm0)]
      exact ⟨(orig + i) % dev.blocks.length, _, _, rfl, hm0⟩
    · have hm0f : matchAt dev.blocks data_id ((orig + i) % dev.blocks.length) = false :=
        Bool.eq_false_iff.mpr hm0
      rw [if_neg (matchAt_false_of_not hpos hm0f)]
      obtain ⟨k, hk, hmk⟩ := hex
      have hk0 : k ≠ 0 := by
        intro h0
        subst h0
        rw [Nat.add_zero] at hmk
        unfold scanPos at hmk
        exact hm0 hmk
      obtain ⟨q, t, devF, heq, hq⟩ := ih (i + 1) _
        ({ dev with current_position := (orig + i) % dev.blocks.length })
        hlen
        ⟨k - 1, by omega, by
          show matchAt dev.blocks data_id
            (scanPos orig dev.blocks.length (i + 1 + (k - 1))) = true
          rwa [show i + 1 + (k - 1) = i + k by omega]⟩
      exact ⟨q, t, devF, heq, hq⟩

/-- Claim C3: on a non-empty device with the head in range, the no-index
`find_block` scans circularly from the head; if the queried identifier is
stored by exactly one data block, it returns that block's position; if no
data block stores it, it returns "not found" with cost equal to one full
pass over all blocks (the sum of every per-step seek and read cost). -/
theorem c3_no_index_find (dev : TapeDevice) (data_id : Nat)
    (hne : 0 < dev.blocks.length) (hpos : dev.current_position < dev.blocks.length) :
    (∀ p, matchAt dev.blocks data_id p = true →
      (∀ q, q < dev.blocks.length → matchAt dev.blocks data_id q = true → q = p) →
      ∃ t devF, NoIndexStrategy.find_block dev data_id = .ok (some p, t, devF)) ∧
    ((∀ q, q < dev.blocks.length → matchAt dev.blocks data_id q = false) →
      ∃ devF, NoIndexStrategy.find_block dev data_id =
        .ok (none, fullPassCost dev dev.current_position, devF)) := by
  constructor
  · intro p hp huniq
    obtain ⟨k, hk, hscan⟩ :=
      scanPos_covers dev.current_position dev.blocks.length p hpos (matchAt_lt hp)
    obtain ⟨q, t, devF, heq, hq⟩ :=
      noIndexFindLoop_finds data_id dev.current_position dev.blocks.length 0 0 dev hne
        ⟨k, hk, by rw [Nat.zero_add, hscan]; exact hp⟩
    have hqp : q = p := huniq q (matchAt_lt hq) hq
    subst hqp
    exact ⟨t, devF, heq⟩
  · intro habs
    obtain ⟨devF, heq⟩ :=
      noIndexFindLoop_not_found data_id dev.current_position dev.blocks.length 0 0 dev hne
        (by unfold prevPos; rw [if_pos rfl])
        (by
          intro k hk
          rw [Nat.zero_add]
          exact habs _ (Nat.mod_lt _ hne))
    refine ⟨devF, ?_⟩
    unfold NoIndexStrategy.find_block
    rw [heq]
    have hfp : fullPassCost dev dev.current_position =
        stepSum dev dev.current_position 0 dev.blocks.length := by
      unfold fullPassCost stepSum
      rw [List.range_eq_range']
    rw [hfp, zero_add]

/-- Witness for C3 on the mixed device: identifier 7 is stored by exactly
one data block (position 1; the index block at position 2 reusing the
identifier does not count), and the scan returns position 1; identifier 8
is stored by no data block, and the scan returns "not found" at full-pass
cost. -/
theorem c3_no_index_find_witness :
    (∃ t devF, NoIndexStrategy.find_block mixedDevice 7 = .ok (some 1, t, devF)) ∧
    (∃ devF, NoIndexStrategy.find_block mixedDevice 8 =
      .ok (none, fullPassCost mixedDevice mixedDevice.current_position, devF)) :=
  ⟨(c3_no_index_find mixedDevice 7 (by decide) (by decide)).1 1 (by decide) (by decide),
   (c3_no_index_find mixedDevice 8 (by decide) (by decide)).2 (by decide)⟩

set_option maxRecDepth 100000 in
/-- Claim C1 (refuted by the code): in the spec's end-to-end scenario —
100 data blocks with identifiers 1..100, fixed-interval strategy with
interval 10 — the build records the loop counter instead of the tape
position once index blocks have been appended at the tape end, so querying
identifier 57 reads a block with a different identifier and returns "not
found" (`some none` below: both calls returned normally, query result
"not found"), even though position 56 really holds identifier 57. -/
theorem c1_find57_not_found :
    c1ScenarioResult = some none ∧
    (seqDevice 100).blocks.get? 56 = some ⟨57, [], false⟩ := by
  constructor
  · decide
  · decide

set_option maxRecDepth 100000 in
/-- Claim C2 (refuted by the code): in the same scenario the build yields a
map of 91 entries (not 100) and appends 9 index blocks (final block count
109, not 110): after each index block is appended at the tape end, the walk
advances the head one extra step and skips a data block (identifiers
11, 22, …, 99 are never indexed).  The appended blocks are index blocks. -/
theorem c2_map_and_blocks :
    c2ScenarioResult = some (91, 109, true) := by
  decide

end FakeTape
